import Mathlib

/-!
Verification of the wallpapermod submission classification engine.

The definitions below are a shallow embedding of the Python sources:
  - wallpapermod/const.py           (enumerations and the Resolution alias)
  - wallpapermod/database/models.py (Submission.parse_title, Submission.title_to_res_pairs,
                                     the _res_pattern regular expression, _TitleToken)
  - wallpapermod/__init__.py        (App.check_submission, App.check_image, App.get_image_urls)

Strings are modelled as lists of characters.  The regular expression
_res_pattern is embedded as a deterministic matcher: because the character
classes of consecutive pattern elements are pairwise disjoint from the
whitespace class and from each other at every backtracking point, the
greedy backtracking search of the Python engine coincides with
maximal-munch parsing, which is what matchAt implements.  re.split and
re.findall scan for leftmost non-overlapping matches; reSplitRes models
that scan, returning the leading plain text and, for every match, the
captured groups together with the plain text that follows the match.
-/

/-- Resolution type alias from const.py: a (width, height) pair. -/
abbrev Resolution := Nat × Nat

/-- ImageResult enumeration from const.py. -/
inductive ImageResult
  | LARGER
  | SMALLER
  | UNSUPPORTED_MEDIA_TYPE
  | VALID
deriving DecidableEq

/-- PostResult enumeration from const.py.  Note there is no MODPOST member. -/
inductive PostResult
  | LARGER
  | NO_RESOLUTION
  | SMALLER
  | UNSUPPORTED_MEDIA_TYPE
  | UNSUPPORTED_RES
  | UNSUPPORTED_TYPE_OR_LINK
  | VALID
deriving DecidableEq

/-- PostType enumeration from const.py. -/
inductive PostType
  | GALLERY
  | IMAGE
  | UNKNOWN
deriving DecidableEq

/-- The .value string of each ImageResult member (const.py). -/
def ImageResult.value : ImageResult → String
  | .LARGER => "IMAGE LARGER THAN TITLE"
  | .SMALLER => "IMAGE SMALLER THAN TITLE"
  | .UNSUPPORTED_MEDIA_TYPE => "UNSUPPORTED MEDIA TYPE"
  | .VALID => "VALID"

/-- The .value string of each PostResult member (const.py). -/
def PostResult.value : PostResult → String
  | .LARGER => "IMAGE LARGER THAN TITLE"
  | .NO_RESOLUTION => "NO RESOLUTION IN TITLE"
  | .SMALLER => "IMAGE SMALLER THAN TITLE"
  | .UNSUPPORTED_MEDIA_TYPE => "UNSUPPORTED MEDIA TYPE"
  | .UNSUPPORTED_RES => "UNSUPPORTED RESOLUTION"
  | .UNSUPPORTED_TYPE_OR_LINK => "UNSUPPORTED POST TYPE OR LINK"
  | .VALID => "VALID"

/-- Python ImageResult(value): lookup of an ImageResult member by its value,
None when no member has that value (Python raises ValueError). -/
def imageResultOfValue (v : String) : Option ImageResult :=
  if v = "IMAGE LARGER THAN TITLE" then some ImageResult.LARGER
  else if v = "IMAGE SMALLER THAN TITLE" then some ImageResult.SMALLER
  else if v = "UNSUPPORTED MEDIA TYPE" then some ImageResult.UNSUPPORTED_MEDIA_TYPE
  else if v = "VALID" then some ImageResult.VALID
  else none

/-- Python PostResult(value): lookup of a PostResult member by its value. -/
def postResultOfValue (v : String) : Option PostResult :=
  if v = "IMAGE LARGER THAN TITLE" then some PostResult.LARGER
  else if v = "NO RESOLUTION IN TITLE" then some PostResult.NO_RESOLUTION
  else if v = "IMAGE SMALLER THAN TITLE" then some PostResult.SMALLER
  else if v = "UNSUPPORTED MEDIA TYPE" then some PostResult.UNSUPPORTED_MEDIA_TYPE
  else if v = "UNSUPPORTED RESOLUTION" then some PostResult.UNSUPPORTED_RES
  else if v = "UNSUPPORTED POST TYPE OR LINK" then some PostResult.UNSUPPORTED_TYPE_OR_LINK
  else if v = "VALID" then some PostResult.VALID
  else none

/-- The names of the members of the PostResult enumeration, in the order of
const.py lines 21 to 28. -/
def postResultMemberNames : List String :=
  ["LARGER", "NO_RESOLUTION", "SMALLER", "UNSUPPORTED_MEDIA_TYPE",
   "UNSUPPORTED_RES", "UNSUPPORTED_TYPE_OR_LINK", "VALID"]

/-- Python attribute access PostResult.NAME: returns the member named NAME,
None when the enumeration has no such member (Python raises AttributeError). -/
def postResultAttr (name : String) : Option PostResult :=
  if name = "LARGER" then some PostResult.LARGER
  else if name = "NO_RESOLUTION" then some PostResult.NO_RESOLUTION
  else if name = "SMALLER" then some PostResult.SMALLER
  else if name = "UNSUPPORTED_MEDIA_TYPE" then some PostResult.UNSUPPORTED_MEDIA_TYPE
  else if name = "UNSUPPORTED_RES" then some PostResult.UNSUPPORTED_RES
  else if name = "UNSUPPORTED_TYPE_OR_LINK" then some PostResult.UNSUPPORTED_TYPE_OR_LINK
  else if name = "VALID" then some PostResult.VALID
  else none

/-- The Python regex class backslash-s for str patterns: Unicode whitespace. -/
def isWsChar (c : Char) : Bool :=
  c = ' ' || c = '\t' || c = '\n' || c = '\r' || c = '\x0b' || c = '\x0c' ||
  c = '\x1c' || c = '\x1d' || c = '\x1e' || c = '\x1f' ||
  c = '\x85' || c = '\u00A0' || c = '\u1680' ||
  ('\u2000' ≤ c && c ≤ '\u200A') ||
  c = '\u2028' || c = '\u2029' || c = '\u202F' || c = '\u205F' || c = '\u3000'

/-- The opening bracket class of _res_pattern: one of [ ( and the opening
curly brace. -/
def isOpenBracket (c : Char) : Bool :=
  c = '[' || c = '(' || c = '\x7b'

/-- The closing bracket class of _res_pattern: one of ] ) and the closing
curly brace. -/
def isCloseBracket (c : Char) : Bool :=
  c = ']' || c = ')' || c = '\x7d'

/-- The digit class [0-9] of _res_pattern. -/
def isDigitChar (c : Char) : Bool :=
  '0' ≤ c && c ≤ '9'

/-- The x-like separator class of _res_pattern.  The source bytes of the
class are x, the asterisk, U+00C3 (capital A with tilde) and U+2014 (em
dash); the latter two are the double-UTF-8 encoding of U+00D7, the
multiplication sign, so the multiplication sign itself is NOT in the class.
re.IGNORECASE adds X and U+00E3 (small a with tilde). -/
def isSepChar (c : Char) : Bool :=
  c = 'x' || c = 'X' || c = '*' || c = '\u00C3' || c = '\u00E3' || c = '\u2014'

/-- Matches one character satisfying p, returning it and the rest. -/
def pChar (p : Char → Bool) : List Char → Option (List Char × List Char)
  | [] => none
  | c :: cs => if p c then some ([c], cs) else none

/-- Matches the optional single whitespace of the pattern element
backslash-s question mark, returning the consumed prefix and the rest. -/
def skipWs1 : List Char → List Char × List Char
  | [] => ([], [])
  | c :: cs => if isWsChar c then ([c], cs) else ([], c :: cs)

/-- Matches the nonempty greedy digit run of the pattern element [0-9]+. -/
def pDigits (s : List Char) : Option (List Char × List Char) :=
  let d := s.takeWhile isDigitChar
  if d = [] then none else some (d, s.dropWhile isDigitChar)

/-- Attempts to match _res_pattern at the start of s.  On success returns
(full match = capture group 1, width digits = group 2, height digits =
group 3, remainder of s after the match). -/
def matchAt (s : List Char) : Option (List Char × List Char × List Char × List Char) :=
  match pChar isOpenBracket s with
  | none => none
  | some (o, r1) =>
    match pDigits (skipWs1 r1).2 with
    | none => none
    | some (wdig, r3) =>
      match pChar isSepChar (skipWs1 r3).2 with
      | none => none
      | some (sp, r5) =>
        match pDigits (skipWs1 r5).2 with
        | none => none
        | some (hdig, r7) =>
          match pChar isCloseBracket (skipWs1 r7).2 with
          | none => none
          | some (cl, r9) =>
            some (o ++ (skipWs1 r1).1 ++ wdig ++ (skipWs1 r3).1 ++ sp ++
                  (skipWs1 r5).1 ++ hdig ++ (skipWs1 r7).1 ++ cl, wdig, hdig, r9)

/-- One segment of the scan: (full match, width digits, height digits,
plain text following the match up to the next match or end of string). -/
abbrev ResSegment := List Char × List Char × List Char × List Char

/-- The leftmost non-overlapping scan shared by re.split and re.findall on
_res_pattern: returns the plain text before the first match and the list of
match segments.  The fuel argument bounds the recursion; every caller
passes at least the length of the string plus one, which is sufficient
because every match consumes at least one character. -/
def reSplitRes : Nat → List Char → List Char × List ResSegment
  | 0, s => (s, [])
  | _ + 1, [] => ([], [])
  | fuel + 1, c :: cs =>
    match matchAt (c :: cs) with
    | some (full, wdig, hdig, rest) =>
      ([], (full, wdig, hdig, (reSplitRes fuel rest).1) :: (reSplitRes fuel rest).2)
    | none =>
      (c :: (reSplitRes fuel cs).1, (reSplitRes fuel cs).2)

/-- Python int() on a string of decimal digits. -/
def digitsToNat (ds : List Char) : Nat :=
  ds.foldl (fun n c => 10 * n + (c.toNat - 48)) 0

/-- The scale loop of Submission.parse_title (models.py lines 90 to 97):
the first scale in 1, 2, 3 whose floor-divided width together with the
height is in the known-good list, and 0 when none qualifies. -/
def computeScale (known : List Resolution) (w h : Nat) : Nat :=
  if (w / 1, h) ∈ known then 1
  else if (w / 2, h) ∈ known then 2
  else if (w / 3, h) ∈ known then 3
  else 0

/-- _TitleToken from models.py: the literal text of the span, and for
resolution markers the decoded width, height and scale. -/
structure TitleToken where
  value : List Char
  width : Option Nat
  height : Option Nat
  scale : Option Nat
deriving DecidableEq

/-- Python set.add on a list-represented set: append unless present. -/
def setAdd (s : List Resolution) (x : Resolution) : List Resolution :=
  if x ∈ s then s else s ++ [x]

/-- The match-consuming loop of Submission.parse_title (models.py lines 82
to 101): from the match segments, build the declared resolution list, the
good_rezzes set and the title tokens after the leading plain text. -/
def processSegs (known : List Resolution) :
    List ResSegment → List Resolution × List Resolution × List TitleToken
  | [] => ([], [], [])
  | (full, wdig, hdig, trail) :: rest =>
    let w := digitsToNat wdig
    let h := digitsToNat hdig
    let sc := computeScale known w h
    let tok : TitleToken := ⟨full, some w, some h, some sc⟩
    let tail := processSegs known rest
    let toks :=
      if trail = [] then tok :: tail.2.2
      else tok :: (⟨trail, none, none, none⟩ : TitleToken) :: tail.2.2
    ((w, h) :: tail.1,
     (if sc = 0 then tail.2.1 else setAdd tail.2.1 (w, h)),
     toks)

/-- The fields of a Submission populated by parse_title. -/
structure ParsedTitle where
  res : List Resolution
  good : List Resolution
  tokens : List TitleToken
deriving DecidableEq

/-- Submission.parse_title (models.py lines 58 to 105). -/
def parse_title (known : List Resolution) (title : String) : ParsedTitle :=
  let split := reSplitRes (title.data.length + 1) title.data
  if split.2 = [] then
    ⟨[], [], [⟨split.1, none, none, none⟩]⟩
  else
    let tail := processSegs known split.2
    let toks :=
      if split.1 = [] then tail.2.2
      else (⟨split.1, none, none, none⟩ : TitleToken) :: tail.2.2
    ⟨tail.1, tail.2.1, toks⟩

example : (parse_title [(1920, 1080)] "[1920x1080] Cool Rose").res = [(1920, 1080)] := by decide
example : (parse_title [(1920, 1080)] "[3840x1080] Dual Monitor").good = [(3840, 1080)] := by decide
example : (parse_title [] "no marker here").res = [] := by decide

/-- The image records created by App.check_image (fields of the Image model
in models.py that check_image touches). -/
structure ImageRec where
  url : String
  format : String
  x : Nat
  y : Nat
  result : ImageResult
deriving DecidableEq

/-- The dimension comparison of App.check_image against good_rezzes
(wallpapermod/__init__.py lines 392 to 417): VALID is assigned first, then
overwritten with LARGER when some good resolution is dominated in both
dimensions, or with SMALLER when none is.  This is the final value of the
result field. -/
def checkDims (good : List Resolution) (x y : Nat) : ImageResult :=
  if (x, y) ∈ good then ImageResult.VALID
  else if good.any (fun g => x ≥ g.1 && y ≥ g.2) then ImageResult.LARGER
  else ImageResult.SMALLER

/-- App.check_image (wallpapermod/__init__.py lines 362 to 419).  The
external image fetch and decode is a parameter: none models
UnidentifiedImageError, some (format, width, height) a decoded image.  The
Image row starts with format empty string and x = y = 0 (models.py
defaults). -/
def check_image (good : List Resolution) (url : String)
    (fetched : Option (String × Nat × Nat)) : ImageRec :=
  match fetched with
  | none => ⟨url, "", 0, 0, ImageResult.UNSUPPORTED_MEDIA_TYPE⟩
  | some (fmt, w, h) => ⟨url, fmt, w, h, checkDims good w h⟩

/-- The successive assignments App.check_image makes to image.result, in
program order: UNSUPPORTED_MEDIA_TYPE alone on decode failure; VALID alone
on an exact good_rezzes member; VALID then LARGER or SMALLER otherwise. -/
def checkImageAssignments (good : List Resolution)
    (fetched : Option (String × Nat × Nat)) : List ImageResult :=
  match fetched with
  | none => [ImageResult.UNSUPPORTED_MEDIA_TYPE]
  | some (_, w, h) =>
    if (w, h) ∈ good then [ImageResult.VALID]
    else if good.any (fun g => w ≥ g.1 && h ≥ g.2) then
      [ImageResult.VALID, ImageResult.LARGER]
    else [ImageResult.VALID, ImageResult.SMALLER]

/-- The severity dict of App.check_submission (wallpapermod/__init__.py
lines 263 to 268). -/
def hierarchy : ImageResult → Nat
  | ImageResult.VALID => 0
  | ImageResult.LARGER => 1
  | ImageResult.UNSUPPORTED_MEDIA_TYPE => 2
  | ImageResult.SMALLER => 3

/-- One iteration of the aggregation loop (wallpapermod/__init__.py lines
270 to 276): convert the current PostResult to an ImageResult by value,
compare severities, and on an update convert the ImageResult back to a
PostResult by value.  Either enum-by-value conversion failing is a Python
ValueError, modelled by none. -/
def aggStep (r : PostResult) (i : ImageResult) : Option PostResult :=
  match imageResultOfValue r.value with
  | none => none
  | some cur =>
    if hierarchy cur < hierarchy i then postResultOfValue i.value
    else some r

/-- The aggregation loop of App.check_submission over the image results. -/
def aggLoop : PostResult → List ImageResult → Option PostResult
  | r, [] => some r
  | r, i :: is =>
    match aggStep r i with
    | some r2 => aggLoop r2 is
    | none => none

/-- The whole aggregation step (wallpapermod/__init__.py lines 262 to 276):
start from PostResult.VALID and fold the loop body over the image results
in order. -/
def aggregate (l : List ImageResult) : Option PostResult :=
  aggLoop PostResult.VALID l

example : aggregate [ImageResult.VALID, ImageResult.LARGER] = some PostResult.LARGER := by decide
example : aggregate [ImageResult.VALID, ImageResult.LARGER, ImageResult.SMALLER]
    = some PostResult.SMALLER := by decide
example : aggregate [] = some PostResult.VALID := by decide

/-- The shape of App.get_image_urls output consumed by check_submission:
a gallery URL list, a single image URL, or an unclassifiable link (which
raises PostResultError(UNSUPPORTED_TYPE_OR_LINK)). -/
inductive UrlResolution
  | gallery (urls : List String)
  | single (url : String)
  | unsupported
deriving DecidableEq

/-- Python errors surfaced by the classification code paths. -/
inductive PyError
  | attributeError (member : String)
  | valueError (msg : String)
deriving DecidableEq

/-- The Submission fields populated by the classification part of
App.check_submission, plus a flag recording whether control reached the
aggregation loop. -/
structure SubState where
  res : List Resolution
  good : List Resolution
  ptype : PostType
  result : PostResult
  images : List ImageRec
  aggregated : Bool
deriving DecidableEq

/-- The classification logic of App.check_submission
(wallpapermod/__init__.py lines 224 to 276).  The moderator branch
evaluates the attribute access PostResult.MODPOST; parse_title has already
populated res and good_rezzes; the URL resolver and the image fetcher are
parameters.  Raised PostResultError is caught and sets result and
PostType.UNKNOWN; an AttributeError or ValueError escapes as Except.error. -/
def check_submission (isMod : Bool) (known : List Resolution) (title : String)
    (resolve : UrlResolution) (fetch : String → Option (String × Nat × Nat)) :
    Except PyError SubState :=
  let p := parse_title known title
  if isMod then
    match postResultAttr "MODPOST" with
    | some r => Except.ok ⟨p.res, p.good, PostType.UNKNOWN, r, [], false⟩
    | none => Except.error (PyError.attributeError "MODPOST")
  else
    if p.res = [] then
      Except.ok ⟨p.res, p.good, PostType.UNKNOWN, PostResult.NO_RESOLUTION, [], false⟩
    else if p.good = [] then
      Except.ok ⟨p.res, p.good, PostType.UNKNOWN, PostResult.UNSUPPORTED_RES, [], false⟩
    else
      match resolve with
      | UrlResolution.unsupported =>
        Except.ok ⟨p.res, p.good, PostType.UNKNOWN, PostResult.UNSUPPORTED_TYPE_OR_LINK, [], false⟩
      | UrlResolution.single url =>
        let imgs := [check_image p.good url (fetch url)]
        match aggregate (imgs.map ImageRec.result) with
        | some r => Except.ok ⟨p.res, p.good, PostType.IMAGE, r, imgs, true⟩
        | none => Except.error (PyError.valueError "is not a valid ImageResult")
      | UrlResolution.gallery urls =>
        let imgs := urls.map (fun u => check_image p.good u (fetch u))
        match aggregate (imgs.map ImageRec.result) with
        | some r => Except.ok ⟨p.res, p.good, PostType.GALLERY, r, imgs, true⟩
        | none => Except.error (PyError.valueError "is not a valid ImageResult")

/-- Python str.strip on a character list. -/
def pyStrip (s : List Char) : List Char :=
  ((s.dropWhile isWsChar).reverse.dropWhile isWsChar).reverse

/-- Python int() on an arbitrary string: strip whitespace, optional sign,
then a nonempty run of decimal digits; anything else raises ValueError,
modelled by none.  (Underscores between digits are not modelled; no string
this development applies pyInt to can contain one.) -/
def pyInt (s : String) : Option Int :=
  match pyStrip s.data with
  | [] => none
  | c :: cs =>
    if c = '-' then
      if cs ≠ [] ∧ cs.all isDigitChar then some (-(digitsToNat cs : Int)) else none
    else if c = '+' then
      if cs ≠ [] ∧ cs.all isDigitChar then some ((digitsToNat cs : Int)) else none
    else
      if (c :: cs).all isDigitChar then some ((digitsToNat (c :: cs) : Int)) else none

/-- The loop of Submission.title_to_res_pairs over the re.findall match
tuples (models.py lines 114 to 116): each tuple is (group 1, group 2,
group 3) = (full marker text, width digits, height digits); the loop binds
a to the FIRST tuple element and b to the SECOND and appends
(int(a), int(b)).  A failing int() aborts the whole call, modelled by
none. -/
def resPairsLoop : List ResSegment → Option (List (Int × Int))
  | [] => some []
  | seg :: rest =>
    match pyInt (String.mk seg.1), pyInt (String.mk seg.2.1) with
    | some a, some b =>
      match resPairsLoop rest with
      | some l => some ((a, b) :: l)
      | none => none
    | _, _ => none

/-- Submission.title_to_res_pairs (models.py lines 110 to 117). -/
def title_to_res_pairs (title : String) : Option (List (Int × Int)) :=
  resPairsLoop (reSplitRes (title.data.length + 1) title.data).2

example : title_to_res_pairs "no marker" = some [] := by decide
example : title_to_res_pairs "[1x1]" = none := by decide

/-- Claim C4: the spec says a moderator-authored submission short-circuits
to a MODPOST member of PostResult.  The PostResult enumeration of const.py
has no member named MODPOST, so the attribute access PostResult.MODPOST on
the moderator branch of check_submission raises AttributeError instead of
producing a result: the code contradicts the claim (and its own use of the
name). -/
theorem c4_modpost_not_a_member :
    postResultAttr "MODPOST" = none ∧
    "MODPOST" ∉ postResultMemberNames ∧
    check_submission true [] "" UrlResolution.unsupported (fun _ => none)
      = Except.error (PyError.attributeError "MODPOST") := by
  refine ⟨rfl, by decide, rfl⟩

/-- Claim C5: the spec says the resolution-marker separator set is x, X,
the asterisk and the multiplication sign U+00D7.  In the source the class
is the mojibake pair U+00C3 and U+2014 (the double-UTF-8 encoding of the
multiplication sign) together with x and the asterisk, so a title written
with a real multiplication sign yields no declared resolution, while the
two mojibake characters are accepted. -/
theorem c5_multiplication_sign_not_recognized :
    (parse_title [] "[1920×1080]").res = [] ∧
    (parse_title [] "[1920x1080]").res = [(1920, 1080)] ∧
    (parse_title [] "[1920X1080]").res = [(1920, 1080)] ∧
    (parse_title [] "[1920*1080]").res = [(1920, 1080)] ∧
    (parse_title [] "[1920Ã1080]").res = [(1920, 1080)] ∧
    (parse_title [] "[1920—1080]").res = [(1920, 1080)] := by
  refine ⟨by decide, by decide, by decide, by decide, by decide, by decide⟩

/-- Claim C10: the spec-implied equivalence of the findall-based extractor
and the tokenizer fails: re.findall returns (group 1, group 2, group 3) =
(full marker, width digits, height digits) per match, and
title_to_res_pairs binds the FULL MARKER string to a and calls int(a),
which raises ValueError on every title containing a marker, while
parse_title stores the decoded pair. -/
theorem c10_extractor_raises_on_any_marker :
    title_to_res_pairs "[1x1]" = none ∧
    (parse_title [] "[1x1]").res = [(1, 1)] ∧
    pyInt (String.mk ('[' :: '1' :: 'x' :: '1' :: [']'])) = none := by
  refine ⟨by decide, by decide, by decide⟩

/-- Claim C8 counterexample: a gallery whose resolver supplies zero usable
image URLs passes the resolution guards, creates no Image, and still
reaches the aggregation loop, which returns VALID over the empty image
list — it does not terminate earlier with NO_RESOLUTION, UNSUPPORTED_RES
or UNSUPPORTED_TYPE_OR_LINK as the claim requires. -/
theorem c8_empty_gallery_reaches_aggregation :
    check_submission false [(1920, 1080)] "[1920x1080]"
        (UrlResolution.gallery []) (fun _ => none)
      = Except.ok ⟨[(1920, 1080)], [(1920, 1080)], PostType.GALLERY,
                   PostResult.VALID, [], true⟩ := by
  rfl

/-- Claim C9 counterexample: when the decoded dimensions are not a member
of good_rezzes, check_image assigns image.result twice — VALID at line 392
and then LARGER or SMALLER at line 413 or 415 — so the result field is not
assigned exactly once. -/
theorem c9_result_assigned_twice :
    checkImageAssignments [(2, 2)] (some ("PNG", 1, 1))
        = [ImageResult.VALID, ImageResult.SMALLER] ∧
    ¬ (checkImageAssignments [(2, 2)] (some ("PNG", 1, 1))).length = 1 := by
  refine ⟨by decide, by decide⟩

theorem pChar_recon {p : Char → Bool} {s t r : List Char}
    (h : pChar p s = some (t, r)) : t ++ r = s := by
  cases s with
  | nil => exact Option.noConfusion h
  | cons c cs =>
    simp only [pChar] at h
    split at h
    · rw [Option.some.injEq, Prod.mk.injEq] at h
      obtain ⟨rfl, rfl⟩ := h
      rfl
    · exact Option.noConfusion h

theorem skipWs1_recon (s : List Char) : (skipWs1 s).1 ++ (skipWs1 s).2 = s := by
  cases s with
  | nil => rfl
  | cons c cs => by_cases h : isWsChar c <;> simp [skipWs1, h]

theorem pDigits_recon {s t r : List Char} (h : pDigits s = some (t, r)) :
    t ++ r = s := by
  simp only [pDigits] at h
  split at h
  · exact Option.noConfusion h
  · rw [Option.some.injEq, Prod.mk.injEq] at h
    obtain ⟨rfl, rfl⟩ := h
    exact List.takeWhile_append_dropWhile isDigitChar s

theorem matchAt_recon {s full wdig hdig rest : List Char}
    (h : matchAt s = some (full, wdig, hdig, rest)) : full ++ rest = s := by
  unfold matchAt at h
  split at h
  · exact Option.noConfusion h
  next o r1 heq1 =>
    split at h
    · exact Option.noConfusion h
    next wd r3 heq2 =>
      split at h
      · exact Option.noConfusion h
      next sp r5 heq3 =>
        split at h
        · exact Option.noConfusion h
        next hd2 r7 heq4 =>
          split at h
          · exact Option.noConfusion h
          next cl r9 heq5 =>
            rw [Option.some.injEq, Prod.mk.injEq, Prod.mk.injEq, Prod.mk.injEq] at h
            obtain ⟨rfl, rfl, rfl, rfl⟩ := h
            have e1 := pChar_recon heq1
            have e2 := pDigits_recon heq2
            have e3 := pChar_recon heq3
            have e4 := pDigits_recon heq4
            have e5 := pChar_recon heq5
            have w1 := skipWs1_recon r1
            have w3 := skipWs1_recon r3
            have w5 := skipWs1_recon r5
            have w7 := skipWs1_recon r7
            simp only [List.append_assoc]
            rw [e5, w7, e4, w5, e3, w3, e2, w1, e1]

/-- The text a match segment contributes to the reconstructed title: the
full marker text followed by the trailing plain text. -/
def segText (seg : ResSegment) : List Char := seg.1 ++ seg.2.2.2

theorem reSplitRes_recon : ∀ (fuel : Nat) (s : List Char),
    (reSplitRes fuel s).1 ++ ((reSplitRes fuel s).2.map segText).flatten = s := by
  intro fuel
  induction fuel with
  | zero => intro s; simp [reSplitRes]
  | succ n ih =>
    intro s
    cases s with
    | nil => simp [reSplitRes]
    | cons c cs =>
      cases hm : matchAt (c :: cs) with
      | none =>
        simp only [reSplitRes, hm, List.cons_append]
        rw [ih cs]
      | some v =>
        obtain ⟨full, wdig, hdig, rest⟩ := v
        have hr := matchAt_recon hm
        simp only [reSplitRes, hm, List.nil_append, List.map_cons, List.flatten_cons,
          segText, List.append_assoc]
        rw [ih rest, hr]

theorem processSegs_tokens_flatten (known : List Resolution) :
    ∀ segs : List ResSegment,
    ((processSegs known segs).2.2.map TitleToken.value).flatten = (segs.map segText).flatten := by
  intro segs
  induction segs with
  | nil => rfl
  | cons seg rest ih =>
    obtain ⟨full, wdig, hdig, trail⟩ := seg
    by_cases ht : trail = []
    · subst ht
      simp [processSegs, segText, ih]
    · simp [processSegs, segText, ht, ih, List.append_assoc]

/-- Claim C7: for every title, concatenating the literal string forms of
the TitleTokens produced by tokenization, in their original order,
reproduces the title string exactly. -/
theorem c7_tokens_reconstruct_title (known : List Resolution) (title : String) :
    ((parse_title known title).tokens.map TitleToken.value).flatten = title.data := by
  have hrec := reSplitRes_recon (title.data.length + 1) title.data
  have hflat := processSegs_tokens_flatten known
    (reSplitRes (title.data.length + 1) title.data).2
  by_cases hs : (reSplitRes (title.data.length + 1) title.data).2 = []
  · have hpt : parse_title known title =
        ⟨[], [], [⟨(reSplitRes (title.data.length + 1) title.data).1, none, none, none⟩]⟩ := by
      simp only [parse_title, if_pos hs]
    rw [hs] at hrec
    simp only [List.map_nil, List.flatten_nil, List.append_nil] at hrec
    rw [hpt]
    simp only [List.map_cons, List.map_nil, List.flatten_cons, List.flatten_nil,
      List.append_nil]
    exact hrec
  · by_cases hl : (reSplitRes (title.data.length + 1) title.data).1 = []
    · have hpt : parse_title known title =
          ⟨(processSegs known (reSplitRes (title.data.length + 1) title.data).2).1,
           (processSegs known (reSplitRes (title.data.length + 1) title.data).2).2.1,
           (processSegs known (reSplitRes (title.data.length + 1) title.data).2).2.2⟩ := by
        simp only [parse_title, if_neg hs, if_pos hl]
      rw [hpt]
      dsimp only
      rw [hflat]
      rw [hl] at hrec
      simpa using hrec
    · have hpt : parse_title known title =
          ⟨(processSegs known (reSplitRes (title.data.length + 1) title.data).2).1,
           (processSegs known (reSplitRes (title.data.length + 1) title.data).2).2.1,
           ⟨(reSplitRes (title.data.length + 1) title.data).1, none, none, none⟩ ::
             (processSegs known (reSplitRes (title.data.length + 1) title.data).2).2.2⟩ := by
        simp only [parse_title, if_neg hs, if_neg hl]
      rw [hpt]
      simp only [List.map_cons, List.flatten_cons]
      rw [hflat]
      exact hrec

/-- Claim C2: for an image whose dimensions decoded as (x, y), check_image
yields VALID exactly on membership in good_rezzes, otherwise LARGER when
some good resolution is dominated in both dimensions, otherwise SMALLER. -/
theorem c2_image_dimension_check (good : List Resolution) (url fmt : String) (x y : Nat) :
    (check_image good url (some (fmt, x, y))).result =
      if (x, y) ∈ good then ImageResult.VALID
      else if ∃ g ∈ good, g.1 ≤ x ∧ g.2 ≤ y then ImageResult.LARGER
      else ImageResult.SMALLER := by
  show checkDims good x y = _
  unfold checkDims
  by_cases h1 : (x, y) ∈ good
  · rw [if_pos h1, if_pos h1]
  · rw [if_neg h1, if_neg h1]
    by_cases h2 : ∃ g ∈ good, g.1 ≤ x ∧ g.2 ≤ y
    · rw [if_pos h2]
      have hany : good.any (fun g => x ≥ g.1 && y ≥ g.2) = true := by
        rcases h2 with ⟨g, hg, hgx, hgy⟩
        exact List.any_eq_true.mpr ⟨g, hg, by simp [ge_iff_le, hgx, hgy]⟩
      rw [if_pos hany]
    · rw [if_neg h2]
      have hany : ¬ good.any (fun g => x ≥ g.1 && y ≥ g.2) = true := by
        intro hcontra
        rcases List.any_eq_true.mp hcontra with ⟨g, hg, hcond⟩
        simp only [ge_iff_le, Bool.and_eq_true, decide_eq_true_eq] at hcond
        exact h2 ⟨g, hg, hcond.1, hcond.2⟩
      rw [if_neg hany]

theorem setAdd_mem (s : List Resolution) (x y : Resolution) :
    x ∈ setAdd s y ↔ (x ∈ s ∨ x = y) := by
  by_cases hy : y ∈ s
  · simp only [setAdd, if_pos hy]
    exact ⟨Or.inl, fun hc => hc.elim id (fun he => he ▸ hy)⟩
  · simp [setAdd, if_neg hy]

theorem computeScale_spec (known : List Resolution) (w h : Nat) :
    (computeScale known w h = 0 → ∀ s, 1 ≤ s → s ≤ 3 → (w / s, h) ∉ known) ∧
    (computeScale known w h ≠ 0 →
      1 ≤ computeScale known w h ∧ computeScale known w h ≤ 3 ∧
      (w / computeScale known w h, h) ∈ known ∧
      ∀ s, 1 ≤ s → s < computeScale known w h → (w / s, h) ∉ known) := by
  unfold computeScale
  by_cases h1 : (w / 1, h) ∈ known
  · rw [if_pos h1]
    refine ⟨fun hz => absurd hz (by omega), fun _ => ⟨le_refl 1, by omega, h1, ?_⟩⟩
    intro s hs1 hs2
    exact absurd (lt_of_lt_of_le hs2 hs1) (lt_irrefl s)
  · rw [if_neg h1]
    by_cases h2 : (w / 2, h) ∈ known
    · rw [if_pos h2]
      refine ⟨fun hz => absurd hz (by omega), fun _ => ⟨by omega, by omega, h2, ?_⟩⟩
      intro s hs1 hs2
      have : s = 1 := by omega
      subst this
      exact h1
    · rw [if_neg h2]
      by_cases h3 : (w / 3, h) ∈ known
      · rw [if_pos h3]
        refine ⟨fun hz => absurd hz (by omega), fun _ => ⟨by omega, by omega, h3, ?_⟩⟩
        intro s hs1 hs2
        have : s = 1 ∨ s = 2 := by omega
        rcases this with rfl | rfl
        · exact h1
        · exact h2
      · rw [if_neg h3]
        refine ⟨fun _ s hs1 hs2 => ?_, fun hz => absurd rfl hz⟩
        have : s = 1 ∨ s = 2 ∨ s = 3 := by omega
        rcases this with rfl | rfl | rfl
        · exact h1
        · exact h2
        · exact h3

theorem processSegs_res_token (known : List Resolution) :
    ∀ (segs : List ResSegment) (w h : Nat),
    (w, h) ∈ (processSegs known segs).1 →
    ∃ tok ∈ (processSegs known segs).2.2,
      tok.width = some w ∧ tok.height = some h ∧
      tok.scale = some (computeScale known w h) := by
  intro segs
  induction segs with
  | nil => intro w h hmem; simp [processSegs] at hmem
  | cons seg rest ih =>
    intro w h hmem
    obtain ⟨full, wdig, hdig, trail⟩ := seg
    simp only [processSegs, List.mem_cons] at hmem
    rcases hmem with heq | htail
    · rw [Prod.mk.injEq] at heq
      obtain ⟨rfl, rfl⟩ := heq
      refine ⟨⟨full, some (digitsToNat wdig), some (digitsToNat hdig),
        some (computeScale known (digitsToNat wdig) (digitsToNat hdig))⟩, ?_, rfl, rfl, rfl⟩
      simp only [processSegs]
      split <;> exact List.mem_cons_self _ _
    · rcases ih w h htail with ⟨tok, htok, hw, hh, hsc⟩
      refine ⟨tok, ?_, hw, hh, hsc⟩
      simp only [processSegs]
      split
      · exact List.mem_cons_of_mem _ htok
      · exact List.mem_cons_of_mem _ (List.mem_cons_of_mem _ htok)

theorem processSegs_good_iff (known : List Resolution) :
    ∀ (segs : List ResSegment) (w h : Nat),
    (w, h) ∈ (processSegs known segs).2.1 ↔
      ((w, h) ∈ (processSegs known segs).1 ∧ computeScale known w h ≠ 0) := by
  intro segs
  induction segs with
  | nil => intro w h; simp [processSegs]
  | cons seg rest ih =>
    intro w h
    obtain ⟨full, wdig, hdig, trail⟩ := seg
    simp only [processSegs, List.mem_cons]
    by_cases hsc0 : computeScale known (digitsToNat wdig) (digitsToNat hdig) = 0
    · rw [if_pos hsc0]
      constructor
      · intro hmem
        rcases (ih w h).mp hmem with ⟨hres, hne2⟩
        exact ⟨Or.inr hres, hne2⟩
      · rintro ⟨heq | htail, hne⟩
        · rw [Prod.mk.injEq] at heq
          obtain ⟨rfl, rfl⟩ := heq
          exact absurd hsc0 hne
        · exact (ih w h).mpr ⟨htail, hne⟩
    · rw [if_neg hsc0]
      rw [setAdd_mem]
      constructor
      · rintro (hmem | heq)
        · rcases (ih w h).mp hmem with ⟨hres, hne⟩
          exact ⟨Or.inr hres, hne⟩
        · rw [Prod.mk.injEq] at heq
          obtain ⟨rfl, rfl⟩ := heq
          exact ⟨Or.inl rfl, hsc0⟩
      · rintro ⟨heq | htail, hne⟩
        · rw [Prod.mk.injEq] at heq
          obtain ⟨rfl, rfl⟩ := heq
          exact Or.inr rfl
        · exact Or.inl ((ih w h).mpr ⟨htail, hne⟩)

/-- Claim C1: every declared pair (w, h) extracted from the title carries a
token whose recorded scale is the smallest s in 1, 2, 3 with (w / s, h) in
the known-good set; when such an s exists the original unscaled pair is in
good_rezzes, and when none exists the recorded scale is 0 and the pair is
not in good_rezzes. -/
theorem c1_scale_classification (known : List Resolution) (title : String) (w h : Nat)
    (hmem : (w, h) ∈ (parse_title known title).res) :
    (∃ tok ∈ (parse_title known title).tokens,
        tok.width = some w ∧ tok.height = some h ∧
        tok.scale = some (computeScale known w h)) ∧
    (computeScale known w h ≠ 0 →
        1 ≤ computeScale known w h ∧ computeScale known w h ≤ 3 ∧
        (w / computeScale known w h, h) ∈ known ∧
        (∀ s, 1 ≤ s → s < computeScale known w h → (w / s, h) ∉ known) ∧
        (w, h) ∈ (parse_title known title).good) ∧
    (computeScale known w h = 0 →
        (∀ s, 1 ≤ s → s ≤ 3 → (w / s, h) ∉ known) ∧
        (w, h) ∉ (parse_title known title).good) := by
  by_cases hs : (reSplitRes (title.data.length + 1) title.data).2 = []
  · have hpt : parse_title known title =
        ⟨[], [], [⟨(reSplitRes (title.data.length + 1) title.data).1, none, none, none⟩]⟩ := by
      simp only [parse_title, if_pos hs]
    rw [hpt] at hmem
    simp at hmem
  · have hres : (parse_title known title).res =
        (processSegs known (reSplitRes (title.data.length + 1) title.data).2).1 := by
      simp only [parse_title, if_neg hs]
    have hgood : (parse_title known title).good =
        (processSegs known (reSplitRes (title.data.length + 1) title.data).2).2.1 := by
      simp only [parse_title, if_neg hs]
    have htoksub : ∀ tok,
        tok ∈ (processSegs known (reSplitRes (title.data.length + 1) title.data).2).2.2 →
        tok ∈ (parse_title known title).tokens := by
      intro tok htok
      simp only [parse_title, if_neg hs]
      split
      · exact htok
      · exact List.mem_cons_of_mem _ htok
    rw [hres] at hmem
    have hspec := computeScale_spec known w h
    have hgiff := processSegs_good_iff known
      (reSplitRes (title.data.length + 1) title.data).2 w h
    refine ⟨?_, ?_, ?_⟩
    · rcases processSegs_res_token known _ w h hmem with ⟨tok, htok, hw, hh, hsc⟩
      exact ⟨tok, htoksub tok htok, hw, hh, hsc⟩
    · intro hne
      rcases hspec.2 hne with ⟨hle1, hle3, hmemk, hmin⟩
      refine ⟨hle1, hle3, hmemk, hmin, ?_⟩
      rw [hgood]
      exact hgiff.mpr ⟨hmem, hne⟩
    · intro hz
      refine ⟨hspec.1 hz, ?_⟩
      rw [hgood]
      intro hcontra
      exact absurd hz (hgiff.mp hcontra).2

/-- Witness for c1: the dual-monitor example of the spec, title
"[3840x1080] Dual Monitor" with known-good set containing (1920, 1080):
the declared pair (3840, 1080) gets scale 2 and is recorded in good_rezzes
under its original width. -/
theorem c1_scale_classification_witness :
    (3840, 1080) ∈ (parse_title [(1920, 1080)] "[3840x1080] Dual Monitor").res ∧
    computeScale [(1920, 1080)] 3840 1080 = 2 ∧
    (3840, 1080) ∈ (parse_title [(1920, 1080)] "[3840x1080] Dual Monitor").good :=
  ⟨by decide, by decide,
   ((c1_scale_classification [(1920, 1080)] "[3840x1080] Dual Monitor" 3840 1080
      (by decide)).2.1 (by decide)).2.2.2.2⟩

/-- The highest-severity-wins binary operation that one iteration of the
aggregation loop implements on image results. -/
def maxIR (a b : ImageResult) : ImageResult :=
  if hierarchy a < hierarchy b then b else a

/-- The value-sharing embedding of ImageResult into PostResult: the
conversion PostResult(i.value) performed by the aggregation loop, which
succeeds for all four image results. -/
def postOfImage : ImageResult → PostResult
  | ImageResult.LARGER => PostResult.LARGER
  | ImageResult.SMALLER => PostResult.SMALLER
  | ImageResult.UNSUPPORTED_MEDIA_TYPE => PostResult.UNSUPPORTED_MEDIA_TYPE
  | ImageResult.VALID => PostResult.VALID

theorem aggStep_postOfImage (a i : ImageResult) :
    aggStep (postOfImage a) i = some (postOfImage (maxIR a i)) := by
  cases a <;> cases i <;> rfl

theorem aggLoop_postOfImage (l : List ImageResult) :
    ∀ a, aggLoop (postOfImage a) l = some (postOfImage (l.foldl maxIR a)) := by
  induction l with
  | nil => intro a; rfl
  | cons i rest ih =>
    intro a
    simp only [aggLoop, aggStep_postOfImage, List.foldl_cons]
    exact ih (maxIR a i)

theorem aggregate_eq_foldl (l : List ImageResult) :
    aggregate l = some (postOfImage (l.foldl maxIR ImageResult.VALID)) :=
  aggLoop_postOfImage l ImageResult.VALID

theorem foldl_maxIR_spec (l : List ImageResult) :
    ∀ a, (l.foldl maxIR a = a ∨ l.foldl maxIR a ∈ l) ∧
      hierarchy a ≤ hierarchy (l.foldl maxIR a) ∧
      ∀ i ∈ l, hierarchy i ≤ hierarchy (l.foldl maxIR a) := by
  induction l with
  | nil =>
    intro a
    exact ⟨Or.inl rfl, le_refl _, by simp⟩
  | cons j rest ih =>
    intro a
    simp only [List.foldl_cons, List.mem_cons]
    rcases ih (maxIR a j) with ⟨hor, hle, hub⟩
    have hmax_or : maxIR a j = a ∨ maxIR a j = j := by
      unfold maxIR
      split
      · exact Or.inr rfl
      · exact Or.inl rfl
    have hmax_a : hierarchy a ≤ hierarchy (maxIR a j) := by
      unfold maxIR
      split
      · exact le_of_lt (by assumption)
      · exact le_refl _
    have hmax_j : hierarchy j ≤ hierarchy (maxIR a j) := by
      unfold maxIR
      split
      · exact le_refl _
      · omega
    refine ⟨?_, le_trans hmax_a hle, ?_⟩
    · rcases hor with heq | hmem
      · rcases hmax_or with h1 | h1
        · exact Or.inl (heq.trans h1)
        · exact Or.inr (Or.inl (heq.trans h1))
      · exact Or.inr (Or.inr hmem)
    · intro i hi
      rcases hi with rfl | hi
      · exact le_trans hmax_j hle
      · exact hub i hi

theorem hierarchy_eq_zero {i : ImageResult} (h : hierarchy i = 0) :
    i = ImageResult.VALID := by
  cases i
  · exact absurd h (by simp [hierarchy])
  · exact absurd h (by simp [hierarchy])
  · exact absurd h (by simp [hierarchy])
  · rfl

instance : RightCommutative maxIR :=
  ⟨by intro b a1 a2; cases b <;> cases a1 <;> cases a2 <;> rfl⟩

/-- Claim C3: the aggregate over a non-empty list of image results is the
member of highest severity under VALID < LARGER < UNSUPPORTED_MEDIA_TYPE <
SMALLER, folded from the identity VALID, and is invariant under
permutation of the images. -/
theorem c3_severity_aggregation (l : List ImageResult) (hne : l ≠ []) :
    (∃ m ∈ l, aggregate l = some (postOfImage m) ∧
        ∀ i ∈ l, hierarchy i ≤ hierarchy m) ∧
    (∀ l2, l.Perm l2 → aggregate l = aggregate l2) := by
  constructor
  · rcases foldl_maxIR_spec l ImageResult.VALID with ⟨hor, _, hub⟩
    rcases hor with heq | hmemf
    · cases l with
      | nil => exact absurd rfl hne
      | cons a rest =>
        have ha := hub a (List.mem_cons_self a rest)
        rw [heq] at ha hub
        have hav : a = ImageResult.VALID := hierarchy_eq_zero (Nat.le_zero.mp ha)
        refine ⟨a, List.mem_cons_self a rest, ?_, ?_⟩
        · rw [aggregate_eq_foldl, heq, hav]
        · intro i hi
          rw [hav]
          exact hub i hi
    · exact ⟨l.foldl maxIR ImageResult.VALID, hmemf, aggregate_eq_foldl l, hub⟩
  · intro l2 hperm
    rw [aggregate_eq_foldl, aggregate_eq_foldl]
    rw [hperm.foldl_eq ImageResult.VALID]

/-- Witness for c3: the spec example [VALID, LARGER], non-empty, with its
aggregate invariant under swapping the two images. -/
theorem c3_severity_aggregation_witness :
    ([ImageResult.VALID, ImageResult.LARGER] : List ImageResult) ≠ [] ∧
    aggregate [ImageResult.VALID, ImageResult.LARGER]
      = aggregate [ImageResult.LARGER, ImageResult.VALID] :=
  ⟨by decide,
   (c3_severity_aggregation [ImageResult.VALID, ImageResult.LARGER] (by decide)).2
     [ImageResult.LARGER, ImageResult.VALID]
     (List.Perm.swap ImageResult.LARGER ImageResult.VALID [])⟩

/-- Claim C6: for a non-moderator submission, an empty declared-resolution
list yields NO_RESOLUTION and an empty good_rezzes set (with declared
resolutions present) yields UNSUPPORTED_RES; both set PostType UNKNOWN and
create no Image. -/
theorem c6_early_failures (known : List Resolution) (title : String)
    (resolve : UrlResolution) (fetch : String → Option (String × Nat × Nat)) :
    ((parse_title known title).res = [] →
      check_submission false known title resolve fetch =
        Except.ok ⟨(parse_title known title).res, (parse_title known title).good,
                   PostType.UNKNOWN, PostResult.NO_RESOLUTION, [], false⟩) ∧
    ((parse_title known title).res ≠ [] → (parse_title known title).good = [] →
      check_submission false known title resolve fetch =
        Except.ok ⟨(parse_title known title).res, (parse_title known title).good,
                   PostType.UNKNOWN, PostResult.UNSUPPORTED_RES, [], false⟩) := by
  constructor
  · intro hres
    simp [check_submission, hres]
  · intro hres hgood
    simp [check_submission, hres, hgood]

/-- Witness for c6: a title with no marker fails with NO_RESOLUTION, and a
declared resolution absent from an empty known-good set fails with
UNSUPPORTED_RES; neither creates an Image. -/
theorem c6_early_failures_witness :
    check_submission false [] "hello" UrlResolution.unsupported (fun _ => none) =
      Except.ok ⟨[], [], PostType.UNKNOWN, PostResult.NO_RESOLUTION, [], false⟩ ∧
    check_submission false [] "[1x1]" UrlResolution.unsupported (fun _ => none) =
      Except.ok ⟨[(1, 1)], [], PostType.UNKNOWN, PostResult.UNSUPPORTED_RES, [], false⟩ :=
  ⟨(c6_early_failures [] "hello" UrlResolution.unsupported (fun _ => none)).1 (by decide),
   (c6_early_failures [] "[1x1]" UrlResolution.unsupported (fun _ => none)).2
     (by decide) (by decide)⟩

/-- Claim C8, amended: a submission that reaches the aggregation step has
a non-empty Image list except in the gallery-with-zero-usable-URLs case,
which reaches aggregation with an empty list and aggregates to VALID; a
submission that does not reach aggregation terminated with NO_RESOLUTION,
UNSUPPORTED_RES or UNSUPPORTED_TYPE_OR_LINK. -/
theorem c8_images_at_aggregation (known : List Resolution) (title : String)
    (resolve : UrlResolution) (fetch : String → Option (String × Nat × Nat))
    (s : SubState)
    (hok : check_submission false known title resolve fetch = Except.ok s) :
    (s.aggregated = true →
        s.images ≠ [] ∨
          (resolve = UrlResolution.gallery [] ∧ s.images = [] ∧
           s.result = PostResult.VALID)) ∧
    (s.aggregated = false →
        s.result = PostResult.NO_RESOLUTION ∨ s.result = PostResult.UNSUPPORTED_RES ∨
        s.result = PostResult.UNSUPPORTED_TYPE_OR_LINK) := by
  by_cases hres : (parse_title known title).res = []
  · simp [check_submission, hres] at hok
    obtain rfl := hok.symm
    simp
  · by_cases hgood : (parse_title known title).good = []
    · simp [check_submission, hres, hgood] at hok
      obtain rfl := hok.symm
      simp
    · cases resolve with
      | unsupported =>
        simp [check_submission, hres, hgood] at hok
        obtain rfl := hok.symm
        simp
      | single url =>
        simp [check_submission, hres, hgood, aggregate_eq_foldl] at hok
        obtain rfl := hok.symm
        simp
      | gallery urls =>
        cases urls with
        | nil =>
          simp [check_submission, hres, hgood, aggregate, aggLoop] at hok
          obtain rfl := hok.symm
          simp
        | cons u us =>
          simp [check_submission, hres, hgood, aggregate_eq_foldl] at hok
          obtain rfl := hok.symm
          simp

/-- Witness for c8: a single-image submission reaches aggregation with one
Image record. -/
theorem c8_images_at_aggregation_witness :
    ([⟨"u", "", 0, 0, ImageResult.UNSUPPORTED_MEDIA_TYPE⟩] : List ImageRec) ≠ [] ∨
      (UrlResolution.single "u" = UrlResolution.gallery [] ∧
       ([⟨"u", "", 0, 0, ImageResult.UNSUPPORTED_MEDIA_TYPE⟩] : List ImageRec) = [] ∧
       PostResult.UNSUPPORTED_MEDIA_TYPE = PostResult.VALID) :=
  (c8_images_at_aggregation [(1920, 1080)] "[1920x1080]" (UrlResolution.single "u")
    (fun _ => none)
    ⟨[(1920, 1080)], [(1920, 1080)], PostType.IMAGE, PostResult.UNSUPPORTED_MEDIA_TYPE,
     [⟨"u", "", 0, 0, ImageResult.UNSUPPORTED_MEDIA_TYPE⟩], true⟩ (by rfl)).1 rfl

/-- Claim C9, amended: check_image assigns the result field at least once
and at most twice - once on the unsupported-media path and on an exact
good_rezzes member, twice (VALID then LARGER or SMALLER) on a dimension
mismatch - the last assignment being the final value; the stored width and
height are both 0 on the unsupported path and both equal to the decoded
dimensions otherwise, hence both positive whenever the decoder returns
positive dimensions. -/
theorem c9_image_result_invariant (good : List Resolution) (url : String)
    (fetched : Option (String × Nat × Nat)) :
    checkImageAssignments good fetched ≠ [] ∧
    (checkImageAssignments good fetched).length ≤ 2 ∧
    (checkImageAssignments good fetched).getLast? =
      some (check_image good url fetched).result ∧
    (fetched = none →
        (checkImageAssignments good fetched).length = 1 ∧
        (check_image good url fetched).x = 0 ∧ (check_image good url fetched).y = 0 ∧
        (check_image good url fetched).result = ImageResult.UNSUPPORTED_MEDIA_TYPE) ∧
    (∀ fmt w h, fetched = some (fmt, w, h) →
        (check_image good url fetched).x = w ∧ (check_image good url fetched).y = h ∧
        ((w, h) ∈ good → checkImageAssignments good fetched = [ImageResult.VALID]) ∧
        ((w, h) ∉ good → (checkImageAssignments good fetched).length = 2 ∧
            (checkImageAssignments good fetched).head? = some ImageResult.VALID) ∧
        (0 < w → 0 < h → 0 < (check_image good url fetched).x ∧
            0 < (check_image good url fetched).y)) := by
  cases fetched with
  | none => simp [checkImageAssignments, check_image]
  | some v =>
    obtain ⟨fmt, w, h⟩ := v
    by_cases hmem : (w, h) ∈ good
    · simp only [checkImageAssignments, check_image, checkDims, if_pos hmem]
      refine ⟨by simp, by simp, by simp, by simp, ?_⟩
      intro fmt2 w2 h2 heq
      rw [Option.some.injEq, Prod.mk.injEq, Prod.mk.injEq] at heq
      obtain ⟨rfl, rfl, rfl⟩ := heq
      exact ⟨rfl, rfl, fun _ => by trivial, fun hc => absurd hmem hc, fun hw hh => ⟨hw, hh⟩⟩
    · by_cases hany : good.any (fun g => w ≥ g.1 && h ≥ g.2) = true
      · simp only [checkImageAssignments, check_image, checkDims, if_neg hmem, if_pos hany]
        refine ⟨by simp, by simp, by simp, by simp, ?_⟩
        intro fmt2 w2 h2 heq
        rw [Option.some.injEq, Prod.mk.injEq, Prod.mk.injEq] at heq
        obtain ⟨rfl, rfl, rfl⟩ := heq
        exact ⟨rfl, rfl, fun hc => absurd hc hmem, fun _ => ⟨rfl, rfl⟩,
          fun hw hh => ⟨hw, hh⟩⟩
      · simp only [checkImageAssignments, check_image, checkDims, if_neg hmem, if_neg hany]
        refine ⟨by simp, by simp, by simp, by simp, ?_⟩
        intro fmt2 w2 h2 heq
        rw [Option.some.injEq, Prod.mk.injEq, Prod.mk.injEq] at heq
        obtain ⟨rfl, rfl, rfl⟩ := heq
        exact ⟨rfl, rfl, fun hc => absurd hc hmem, fun _ => ⟨rfl, rfl⟩,
          fun hw hh => ⟨hw, hh⟩⟩

/-- Witness for c9: a decoded 1 by 1 image exactly matching good_rezzes is
assigned VALID exactly once. -/
theorem c9_image_result_invariant_witness :
    ((1, 1) : Resolution) ∈ [((1, 1) : Resolution)] ∧
    checkImageAssignments [(1, 1)] (some ("PNG", 1, 1)) = [ImageResult.VALID] :=
  ⟨by decide,
   ((c9_image_result_invariant [(1, 1)] "u" (some ("PNG", 1, 1))).2.2.2.2 "PNG" 1 1
     rfl).2.2.1 (by decide)⟩
